import Mathlib

/-!
# Subprocess supervisor (extension/subprocess/process.go)

A shallow embedding of the process runner `run`, of the lifecycle controller
(`newProcessManager`, `Start`, `Shutdown`) and of the output collector
`collectOutput`, followed by the properties proved about them.

The runner is a loop over a state variable.  Everything the loop observes from
outside (the result of `cmd.Start`, the child's exit, the cancellation of the
context, the choice Go's `select` makes between two ready cases) is supplied by
a script with one entry per loop iteration; everything the loop does is
recorded, in order, in a trace.
-/

namespace Subprocess

/-! ## Data model -/

/-- Go `error` values as far as the runner tells them apart: `none` is `nil`,
`some c` is a non-nil error (for `cmd.Wait`, a non-zero exit status `c`). -/
abbrev GoError := Option Nat

/-- The `procState` constants of the source. -/
inductive procState
  | starting
  | running
  | shuttingDown
  | stopped
  | restarting
  | errored
  deriving DecidableEq, Repr

/-- The effects of `run`, in the order the source performs them. -/
inductive Action
  /-- The call `logger.Debug("sub_process extension changed state", state)` at the top of the loop. -/
  | changedState (s : procState)
  /-- The call `logger.Error("Subprocess died", err)`. -/
  | subprocessDied (err : GoError)
  /-- The call `createCommand(...)`: a fresh command and two fresh pipes. -/
  | createCommand
  /-- The call `cmd.Start()` with its result: one launch attempt. -/
  | cmdStart (err : GoError)
  /-- The statement `go signalWhenProcessDone(cmd, procWait)`. -/
  | goSignalWhenProcessDone
  /-- The statement `go collectOutput(stdout, logger)`. -/
  | goCollectOutput
  /-- A completed receive from `procWait` (the exit watcher's send completes with it). -/
  | recvProcWait (err : GoError)
  /-- The call `cmd.Process.Signal(syscall.SIGTERM)`. -/
  | sigterm
  /-- The call `stdout.Close()`. -/
  | stdoutClose
  /-- The call `stdin.Close()`. -/
  | stdinClose
  /-- The call `time.Sleep(restartDelay)`. -/
  | sleep (d : Int)
  deriving DecidableEq, Repr

/-- The two pipe ends `createCommand` hands to `run`: `stdinOpen` and
`stdoutOpen` are true until `run` closes the respective end. -/
structure Pipes where
  stdinOpen : Bool
  stdoutOpen : Bool
  deriving DecidableEq, Repr

/-- What the environment does during one loop iteration.

* `cancel`: the host has called the context's cancel function by the time this
  iteration consults (or could consult) the context;
* `pipeErr`: `os.Pipe` fails if this iteration calls `createCommand`;
* `startErr`: the result of `cmd.Start()` if this iteration launches;
* `exit`: `some e` when the child has exited by the end of this iteration's
  wait (in ShuttingDown: after the termination signal), `cmd.Wait` returning
  `e`, so that the exit watcher offers `e` on `procWait`; `none` when the child
  does not exit;
* `pickDone`: when both cases of the `select` in Running are ready, Go takes one
  of them at random; `true` takes `<-ctx.Done()`. -/
structure Obs where
  cancel : Bool
  pipeErr : Bool
  startErr : GoError
  exit : Option GoError
  pickDone : Bool
  deriving DecidableEq, Repr

/-- The local variables of `run`, the state of its context and channel, and the
trace of its effects.

* `retries`: Go's `int`; it is only ever decremented, and only when it is not
  zero, so that from a budget `R ≥ 0` it stays within `0 .. R` and never wraps;
* `ctxDone`: the context has been cancelled (`ctx.Err() != nil`);
* `cmd`: the pipes of the current `cmd, stdin, stdout`, `none` while the
  variables are still nil;
* `discarded`: the pipes of earlier children, overwritten by a later `createCommand`;
* `procWait`: the number of exit watchers started whose message has not been
  received yet. -/
structure RunVars where
  state : procState
  retries : Int
  err : GoError
  ctxDone : Bool
  cmd : Option Pipes
  discarded : List Pipes
  procWait : Nat
  trace : List Action
  deriving DecidableEq, Repr

/-- How one pass through the loop body ends. -/
inductive Flow
  /-- The loop goes round again (end of the `switch`, or `continue`). -/
  | next (v : RunVars)
  /-- The `return` of `case stopped`. -/
  | ret (v : RunVars)
  /-- The goroutine waits forever on a receive or `select`. -/
  | blocked (v : RunVars)
  /-- A panic: the explicit one of `createCommand` when a pipe cannot be created,
  or a nil dereference (a stream or command used before any `createCommand`). -/
  | panicked (v : RunVars)
  deriving DecidableEq, Repr

/-- How `run` ends, or `unfinished` when the script is shorter than the run. -/
inductive Outcome
  | returned (v : RunVars)
  | blocked (v : RunVars)
  | panicked (v : RunVars)
  | unfinished (v : RunVars)
  deriving DecidableEq, Repr

/-- The variables an outcome carries. -/
def Outcome.vars : Outcome → RunVars
  | .returned v => v
  | .blocked v => v
  | .panicked v => v
  | .unfinished v => v

/-- Append effects to the trace. -/
def RunVars.emit (v : RunVars) (as : List Action) : RunVars :=
  { v with trace := v.trace ++ as }

/-! ## The process runner -/

/-- The function `createCommand` as far as `run` uses its result: two fresh
pipes whose ends are open, or `none` when it panics because `os.Pipe` failed. -/
def createCommand (pipeErr : Bool) : Option Pipes :=
  if pipeErr then none else some { stdinOpen := true, stdoutOpen := true }

/-- The function `signalWhenProcessDone`: what the exit watcher sends on
`procWait`, namely the result of `cmd.Wait()` once the child has exited, and
nothing as long as it has not. -/
def signalWhenProcessDone (exit : Option GoError) : List GoError :=
  match exit with
  | some err => [err]
  | none => []

/-- A receive from `procWait`: it completes with the message of the exit watcher
when there is a watcher that has not delivered yet and that has a message to
send. -/
def recvProcWait (pending : Nat) (exit : Option GoError) : Option GoError :=
  if 0 < pending then (signalWhenProcessDone exit).head? else none

/-- The body of the `for` loop of `run`: the debug log line, then the `switch`. -/
def iteration (restartDelay : Int) (o : Obs) (v0 : RunVars) : Flow :=
  let v := { v0 with ctxDone := v0.ctxDone || o.cancel,
                     trace := v0.trace ++ [Action.changedState v0.state] }
  match v.state with
  | .errored =>
    let v := v.emit [.subprocessDied v.err]
    -- Should we retry?
    if v.retries = 0 then
      .next { v with state := .stopped }
    else
      .next { v with retries := v.retries - 1, state := .restarting }
  | .starting =>
    let v := v.emit [.createCommand]
    match createCommand o.pipeErr with
    | none => .panicked v
    | some p =>
      let v := { v with discarded := v.discarded ++ v.cmd.toList, cmd := some p }
      let v := { v with err := o.startErr, trace := v.trace ++ [Action.cmdStart o.startErr] }
      if v.err ≠ none then
        .next { v with state := .errored }
      else
        .next { v with procWait := v.procWait + 1,
                       trace := v.trace ++ [Action.goSignalWhenProcessDone],
                       state := .running }
  | .running =>
    match v.cmd with
    | none => .panicked v
    | some _ =>
      let v := v.emit [.goCollectOutput]
      match recvProcWait v.procWait o.exit with
      | some e =>
        if v.ctxDone && o.pickDone then
          -- case <-ctx.Done()
          .next { v with state := .shuttingDown }
        else
          -- case err = <-procWait
          let v := { v with err := e, procWait := v.procWait - 1,
                            trace := v.trace ++ [Action.recvProcWait e] }
          if v.ctxDone = false then
            .next { v with state := .errored }
          else
            .next { v with state := .stopped }
      | none =>
        if v.ctxDone then
          .next { v with state := .shuttingDown }
        else
          .blocked v
  | .shuttingDown =>
    match v.cmd with
    | none => .panicked v
    | some p =>
      let v := v.emit [.sigterm]
      match recvProcWait v.procWait o.exit with
      | some e =>
        .next { v with procWait := v.procWait - 1,
                       cmd := some { p with stdoutOpen := false },
                       trace := v.trace ++ [Action.recvProcWait e, Action.stdoutClose],
                       state := .stopped }
      | none => .blocked v
  | .restarting =>
    match v.cmd with
    | none => .panicked v
    | some _ =>
      .next { v with cmd := some ⟨false, false⟩,
                     trace := v.trace ++ [Action.stdoutClose, Action.stdinClose, Action.sleep restartDelay],
                     state := .starting }
  | .stopped => .ret v

/-- The `for` loop of `run`, one script entry per iteration. -/
def loop (restartDelay : Int) : List Obs → RunVars → Outcome
  | [], v => .unfinished v
  | o :: w, v =>
    match iteration restartDelay o v with
    | .next v1 => loop restartDelay w v1
    | .ret v1 => .returned v1
    | .blocked v1 => .blocked v1
    | .panicked v1 => .panicked v1

/-- The variables of `run` before the loop: `state := starting`, the command
and stream variables nil, `procWait` a fresh channel.  A context that is
cancelled already when `run` is called is a script whose first entry has
`cancel` set. -/
def initVars (retries : Int) : RunVars :=
  { state := .starting, retries := retries, err := none, ctxDone := false,
    cmd := none, discarded := [], procWait := 0, trace := [] }

/-- The function `run(ctx, execPath, args, workingDirectory, restartDelay, retries, logger)`
against the environment script `w`.  The executable path, arguments and working
directory only reach `createCommand`, whose outcome the script supplies. -/
def run (restartDelay : Int) (retries : Int) (w : List Obs) : Outcome :=
  loop restartDelay w (initVars retries)

/-! ## Reading a trace -/

/-- The states logged at the top of the loop, in order. -/
def statesVisited (t : List Action) : List procState :=
  t.filterMap fun a => match a with
    | .changedState s => some s
    | _ => none

/-- Number of launch attempts (`cmd.Start` calls). -/
def launchAttempts (t : List Action) : Nat :=
  t.countP fun a => match a with
    | .cmdStart _ => true
    | _ => false

/-- Number of restart delays slept. -/
def restartDelays (t : List Action) : Nat :=
  t.countP fun a => match a with
    | .sleep _ => true
    | _ => false

/-- Number of exit watchers started (`go signalWhenProcessDone`). -/
def watchersStarted (t : List Action) : Nat :=
  t.countP fun a => match a with
    | .goSignalWhenProcessDone => true
    | _ => false

/-- Number of launch attempts that succeeded (`cmd.Start` returned nil). -/
def successfulLaunches (t : List Action) : Nat :=
  t.countP fun a => match a with
    | .cmdStart none => true
    | _ => false

/-- Number of launch attempts that failed. -/
def failedLaunches (t : List Action) : Nat :=
  t.countP fun a => match a with
    | .cmdStart (some _) => true
    | _ => false

/-- Number of completion messages received from `procWait`. -/
def messagesReceived (t : List Action) : Nat :=
  t.countP fun a => match a with
    | .recvProcWait _ => true
    | _ => false

/-- Both pipe ends have been closed by `run`. -/
def Pipes.closed (p : Pipes) : Bool := !p.stdinOpen && !p.stdoutOpen

/-- No stream of any child handle `run` created is still open. -/
def allStreamsClosed (v : RunVars) : Bool :=
  (v.discarded ++ v.cmd.toList).all Pipes.closed

/-- The variables a pass through the loop body ends with. -/
def Flow.vars : Flow → RunVars
  | .next v => v
  | .ret v => v
  | .blocked v => v
  | .panicked v => v

/-- The state sequence of a run whose launches all fail, for a budget of `n`
retries: `n` cycles Starting, Errored, Restarting, then Starting, Errored, Stopped. -/
def failingStates : Nat → List procState
  | 0 => [.starting, .errored, .stopped]
  | n + 1 => .starting :: .errored :: .restarting :: failingStates n

/-- What holds of the variables of `run` whenever control is at the top of the
loop, and still when the run has ended, for an initial budget `R`. -/
structure Inv (R : Nat) (v : RunVars) : Prop where
  retries_nonneg : 0 ≤ v.retries
  retries_le : v.retries ≤ (R : Int)
  launches : (launchAttempts v.trace : Int) + v.retries =
    (R : Int) + (if v.state = .starting ∨ v.state = .restarting then 0 else 1)
  procWait_eq : v.procWait = if v.state = .running ∨ v.state = .shuttingDown then 1 else 0
  cmd_some : v.state ≠ .starting → v.cmd ≠ none
  watchers : watchersStarted v.trace = successfulLaunches v.trace
  received : messagesReceived v.trace + v.procWait = watchersStarted v.trace
  discarded_closed : ∀ p ∈ v.discarded, p = ⟨false, false⟩
  starting_closed : v.state = .starting → ∀ p ∈ v.cmd, p = ⟨false, false⟩

/-! ## The lifecycle controller -/

/-- The fields of `Config` that `Start` reads; both are pointers in the source,
`none` is nil. -/
structure Config where
  RestartDelay : Option Int
  Retries : Option Int
  deriving DecidableEq, Repr

/-- A `context.CancelFunc`, identified by the context it cancels. -/
structure CancelFunc where
  ctx : Nat
  deriving DecidableEq, Repr

/-- The struct `processManager`; `cancel` is `none` while the field is nil.
The logger and the channel value itself carry no state of their own here. -/
structure processManager where
  cancel : Option CancelFunc
  conf : Config
  deriving DecidableEq, Repr

/-- The function `newProcessManager`: the `cancel` field is not set. -/
def newProcessManager (conf : Config) : processManager :=
  { cancel := none, conf := conf }

/-- The call of `run` made by the goroutine that `Start` spawns. -/
structure RunCall where
  ctx : Nat
  restartDelay : Int
  retries : Int
  deriving DecidableEq, Repr

/-- The method `Start`: stores the cancel function of the child context
`childCtx` (the one `context.WithCancel(ctx)` returns), spawns the goroutine and
returns nil.  `DefaultRestartDelay` and `DefaultRetries` are constants of the
package declared outside this file. -/
def Start (DefaultRestartDelay DefaultRetries : Int) (pm : processManager) (childCtx : Nat) :
    processManager × RunCall × GoError :=
  let pm1 := { pm with cancel := some ⟨childCtx⟩ }
  let restartDelay :=
    match pm1.conf.RestartDelay with
    | none => DefaultRestartDelay
    | some d => d
  let retries :=
    match pm1.conf.Retries with
    | none => DefaultRetries
    | some r => r
  (pm1, ⟨childCtx, restartDelay, retries⟩, none)

/-- The goroutine of `Start` closes `shutdownSignal` after `run` has returned,
and only then. -/
def closesShutdownSignal (c : RunCall) (w : List Obs) : Bool :=
  match run c.restartDelay c.retries w with
  | .returned _ => true
  | _ => false

/-- The duration `5 * time.Second`, in nanoseconds. -/
def shutdownTimeout : Nat := 5 * 1000000000

/-- A `select` over receive cases: the list gives, for each case, the instant
at which it becomes ready (`none` if never).  The statement completes at the
earliest such instant, taking a case that is ready then; it blocks forever
(`none`) when no case ever becomes ready. -/
def select : List (Option Nat) → Option Nat
  | [] => none
  | none :: cs => select cs
  | some t :: cs =>
    match select cs with
    | none => some t
    | some u => some (min t u)

/-- How a call of `Shutdown` ends. -/
inductive ShutdownResult
  /-- The call `pm.cancel()` of a nil function value: a run-time panic. -/
  | nilFuncCall
  /-- The `select` never completes. -/
  | blocked (cancelled : CancelFunc)
  /-- Normal return of `err`, having invoked `cancelled`, `elapsed` nanoseconds
  after the timer was created. -/
  | returned (cancelled : CancelFunc) (elapsed : Nat) (err : GoError)
  deriving DecidableEq, Repr

/-- The method `Shutdown`.  Instants are nanoseconds counted from the creation
of the timer; `stoppedAt` is the instant at which `shutdownSignal` is closed
(`some 0` if it is closed already, `none` if it never is). -/
def Shutdown (pm : processManager) (stoppedAt : Option Nat) : ShutdownResult :=
  match pm.cancel with
  | none => .nilFuncCall
  | some cancel =>
    -- pm.cancel(); t := time.NewTimer(5 * time.Second)
    match select [stoppedAt, some shutdownTimeout] with
    | none => .blocked cancel
    | some elapsed => .returned cancel elapsed none

/-! ## The output collector

`collectOutput` is a loop around `bufio.Scanner` of the Go standard library,
with the default split function `bufio.ScanLines` and the default buffer limit.
Bytes are natural numbers; a stream is the list of bytes its reader delivers
before it reports end of data. -/

/-- The constant `bufio.MaxScanTokenSize`: the largest buffer a scanner
allocates unless `Scanner.Buffer` is called (the source does not call it). -/
def MaxScanTokenSize : Nat := 64 * 1024

/-- The function `bytes.IndexByte`: the index of the first `c` in `data`,
`none` where Go returns -1. -/
def IndexByte : List Nat → Nat → Option Nat
  | [], _ => none
  | b :: bs, c => if b = c then some 0 else (IndexByte bs c).map (· + 1)

/-- The function `dropCR` of package bufio: drops one terminal carriage return. -/
def dropCR (data : List Nat) : List Nat :=
  if data.getLast? = some 13 then data.dropLast else data

/-- The split function `bufio.ScanLines`: the number of bytes to advance and the
token found, `none` where Go returns a nil token (more data is requested). -/
def ScanLines (data : List Nat) (atEOF : Bool) : Nat × Option (List Nat) :=
  if atEOF && data.length == 0 then
    (0, none)
  else
    match IndexByte data 10 with
    | some i => (i + 1, some (dropCR (data.take i)))
    | none => if atEOF then (data.length, some (dropCR data)) else (0, none)

/-- A `bufio.Scanner`: `src` is what its reader has yet to deliver, unconsumed
buffer contents included; `maxTokenSize` is the limit of its buffer. -/
structure Scanner where
  src : List Nat
  maxTokenSize : Nat
  deriving DecidableEq, Repr

/-- The function `bufio.NewScanner`. -/
def NewScanner (r : List Nat) : Scanner :=
  { src := r, maxTokenSize := MaxScanTokenSize }

/-- The method `Scanner.Scan` followed by `Scanner.Text`: the next token and the
scanner after it, or `none` when `Scan` returns false.  The buffer takes in the
unconsumed bytes up to its limit and the split function runs on it; the stream
is known to have ended only when the buffer is not full.  When the split
function finds no token, either the data has ended, or the buffer is full and
the scan stops with `ErrTooLong`: in both cases `Scan` returns false. -/
def Scanner.Scan (s : Scanner) : Option (List Nat × Scanner) :=
  let atEOF := decide (s.src.length < s.maxTokenSize)
  match ScanLines (s.src.take s.maxTokenSize) atEOF with
  | (advance, some token) => some (token, { s with src := s.src.drop advance })
  | (_, none) => none

/-- The loop `for scanner.Scan() { logger.Debug(scanner.Text()) }`, bounded by
`fuel` passes: the debug messages logged, in order. -/
def scanLoop : Nat → Scanner → List (List Nat)
  | 0, _ => []
  | fuel + 1, s =>
    match s.Scan with
    | some (text, s1) => text :: scanLoop fuel s1
    | none => []

/-- The function `collectOutput(stdout, logger)`: the debug messages it logs for
a stream delivering `stdout`.  Every pass of the loop consumes a byte at least,
so that one pass more than there are bytes lets the loop run to its end. -/
def collectOutput (stdout : List Nat) : List (List Nat) :=
  scanLoop (stdout.length + 1) (NewScanner stdout)

/-- The newline-delimited lines of a byte sequence, as the specification words
them: each line ends at a newline (byte 10), which is not part of it, and what
follows the last newline is a final line when it is not empty. -/
def specLines : List Nat → List (List Nat)
  | [] => []
  | b :: bs =>
    if b = 10 then [] :: specLines bs
    else
      match specLines bs with
      | [] => [[b]]
      | l :: ls => (b :: l) :: ls

/-- An output of two lines, the first one ending in carriage return, newline. -/
def crlfOutput : List Nat := [97, 13, 10, 98, 10]

/-- An output whose first line has 65536 bytes before its newline, followed by
the line `b`. -/
def longLineOutput : List Nat := List.replicate 65536 97 ++ [10, 98, 10]

/-- A script entry for an iteration in which the launch fails and nothing else happens. -/
def failObs : Obs :=
  { cancel := false, pipeErr := false, startErr := some 1, exit := none, pickDone := false }

/-- A script entry for an iteration in which the launch succeeds and nothing else happens. -/
def okObs : Obs :=
  { cancel := false, pipeErr := false, startErr := none, exit := none, pickDone := false }

/-- A script entry for an iteration in which the child exits cleanly (`cmd.Wait`
returns nil) and the context is not cancelled. -/
def cleanExitObs : Obs :=
  { cancel := false, pipeErr := false, startErr := none, exit := some none, pickDone := false }

/-- A script entry for an iteration during which the host cancels the context
and the child keeps running. -/
def cancelObs : Obs :=
  { cancel := true, pipeErr := false, startErr := none, exit := none, pickDone := false }

/-- A script entry for an iteration in which the child exits with status 143. -/
def termExitObs : Obs :=
  { cancel := false, pipeErr := false, startErr := none, exit := some (some 143),
    pickDone := false }

/-- Number of termination signals sent. -/
def sigtermsSent (t : List Action) : Nat :=
  t.count .sigterm

/-- The termination signal has not been sent unless the state is Stopped. -/
def NoSigterm (v : RunVars) : Prop :=
  v.state ≠ .stopped → sigtermsSent v.trace = 0

/-- A script entry for an iteration by which the host has cancelled the context
and in which the launch fails. -/
def cancelledFailObs : Obs :=
  { cancel := true, pipeErr := false, startErr := some 1, exit := none, pickDone := false }

/-- A script entry for an iteration by which the host has cancelled the context
and in which the child exits cleanly, the receive from `procWait` being the
case the `select` takes. -/
def cancelledExitObs : Obs :=
  { cancel := true, pipeErr := false, startErr := none, exit := some none, pickDone := false }

/-- The host cancels before the first launch, and the launch fails. -/
def cancelBeforeStart : List Obs :=
  [cancelledFailObs, failObs, failObs]

/-- The first launch fails and the host cancels during the restart delay; the
second launch fails too. -/
def cancelDuringRestart : List Obs :=
  [failObs, failObs, cancelledFailObs, failObs, failObs, failObs]

/-- The child is launched, the host cancels, and the child's exit is received
in Running: `run` goes from Running straight to Stopped. -/
def exitAfterCancel : List Obs :=
  [okObs, cancelledExitObs, okObs]

/-- The child is launched, the host cancels, the child gets the termination
signal and exits: `run` goes through ShuttingDown. -/
def shutdownScript : List Obs :=
  [okObs, cancelObs, termExitObs, okObs]

/-- The child is launched, the host cancels, and the child never exits. -/
def stuckChildScript : List Obs :=
  [okObs, cancelObs, cancelObs, cancelObs]

/-! ## Properties -/

/-! ### Reading traces and stepping the loop -/

theorem statesVisited_append (a b : List Action) :
    statesVisited (a ++ b) = statesVisited a ++ statesVisited b := by
  simp [statesVisited, List.filterMap_append]

theorem launchAttempts_append (a b : List Action) :
    launchAttempts (a ++ b) = launchAttempts a + launchAttempts b := by
  simp [launchAttempts, List.countP_append]

theorem restartDelays_append (a b : List Action) :
    restartDelays (a ++ b) = restartDelays a + restartDelays b := by
  simp [restartDelays, List.countP_append]

theorem watchersStarted_append (a b : List Action) :
    watchersStarted (a ++ b) = watchersStarted a + watchersStarted b := by
  simp [watchersStarted, List.countP_append]

theorem successfulLaunches_append (a b : List Action) :
    successfulLaunches (a ++ b) = successfulLaunches a + successfulLaunches b := by
  simp [successfulLaunches, List.countP_append]

theorem failedLaunches_append (a b : List Action) :
    failedLaunches (a ++ b) = failedLaunches a + failedLaunches b := by
  simp [failedLaunches, List.countP_append]

theorem messagesReceived_append (a b : List Action) :
    messagesReceived (a ++ b) = messagesReceived a + messagesReceived b := by
  simp [messagesReceived, List.countP_append]

theorem count_restarting_failingStates (n : Nat) :
    (failingStates n).count .restarting = n := by
  induction n with
  | zero => decide
  | succ n ih => simp [failingStates, ih]

theorem loop_starting_fail (d : Int) (o : Obs) (w : List Obs) (v : RunVars)
    (hs : v.state = .starting) (hp : o.pipeErr = false) (hf : o.startErr ≠ none) :
    loop d (o :: w) v = loop d w
      { v with state := .errored, err := o.startErr, ctxDone := v.ctxDone || o.cancel,
               discarded := v.discarded ++ v.cmd.toList, cmd := some ⟨true, true⟩,
               trace := v.trace ++ [Action.changedState .starting, Action.createCommand,
                                    Action.cmdStart o.startErr] } := by
  simp [loop, iteration, hs, hf, hp, createCommand, RunVars.emit]

theorem loop_starting_ok (d : Int) (o : Obs) (w : List Obs) (v : RunVars)
    (hs : v.state = .starting) (hp : o.pipeErr = false) (hf : o.startErr = none) :
    loop d (o :: w) v = loop d w
      { v with state := .running, err := none, ctxDone := v.ctxDone || o.cancel,
               discarded := v.discarded ++ v.cmd.toList, cmd := some ⟨true, true⟩,
               procWait := v.procWait + 1,
               trace := v.trace ++ [Action.changedState .starting, Action.createCommand,
                                    Action.cmdStart none, Action.goSignalWhenProcessDone] } := by
  simp [loop, iteration, hs, hf, hp, createCommand, RunVars.emit]

theorem loop_errored_zero (d : Int) (o : Obs) (w : List Obs) (v : RunVars)
    (hs : v.state = .errored) (hr : v.retries = 0) :
    loop d (o :: w) v = loop d w
      { v with state := .stopped, ctxDone := v.ctxDone || o.cancel,
               trace := v.trace ++ [Action.changedState .errored, Action.subprocessDied v.err] } := by
  simp [loop, iteration, hs, hr, RunVars.emit]

theorem loop_errored_pos (d : Int) (o : Obs) (w : List Obs) (v : RunVars)
    (hs : v.state = .errored) (hr : v.retries ≠ 0) :
    loop d (o :: w) v = loop d w
      { v with state := .restarting, retries := v.retries - 1, ctxDone := v.ctxDone || o.cancel,
               trace := v.trace ++ [Action.changedState .errored, Action.subprocessDied v.err] } := by
  simp [loop, iteration, hs, hr, RunVars.emit]

theorem loop_restarting (d : Int) (o : Obs) (w : List Obs) (v : RunVars) (p : Pipes)
    (hs : v.state = .restarting) (hc : v.cmd = some p) :
    loop d (o :: w) v = loop d w
      { v with state := .starting, ctxDone := v.ctxDone || o.cancel, cmd := some ⟨false, false⟩,
               trace := v.trace ++ [Action.changedState .restarting, Action.stdoutClose,
                                    Action.stdinClose, Action.sleep d] } := by
  simp [loop, iteration, hs, hc]

theorem loop_stopped (d : Int) (o : Obs) (w : List Obs) (v : RunVars)
    (hs : v.state = .stopped) :
    loop d (o :: w) v = .returned
      { v with ctxDone := v.ctxDone || o.cancel,
               trace := v.trace ++ [Action.changedState .stopped] } := by
  simp [loop, iteration, hs]

theorem loop_running_exit (d : Int) (o : Obs) (w : List Obs) (v : RunVars) (p : Pipes)
    (e : GoError) (hs : v.state = .running) (hc : v.cmd = some p) (hw : 0 < v.procWait)
    (he : o.exit = some e) (hk : ((v.ctxDone || o.cancel) && o.pickDone) = false) :
    loop d (o :: w) v = loop d w
      { v with state := if (v.ctxDone || o.cancel) = false then .errored else .stopped,
               err := e, ctxDone := v.ctxDone || o.cancel, procWait := v.procWait - 1,
               trace := v.trace ++ [Action.changedState .running, Action.goCollectOutput,
                                    Action.recvProcWait e] } := by
  simp only [loop, iteration, hs, hc, RunVars.emit, recvProcWait, signalWhenProcessDone, hw, he,
    if_true, List.head?_cons, hk]
  split_ifs <;> simp_all

theorem loop_running_done (d : Int) (o : Obs) (w : List Obs) (v : RunVars) (p : Pipes)
    (hs : v.state = .running) (hc : v.cmd = some p) (hd : (v.ctxDone || o.cancel) = true)
    (hk : o.exit = none ∨ o.pickDone = true) :
    loop d (o :: w) v = loop d w
      { v with state := .shuttingDown, ctxDone := v.ctxDone || o.cancel,
               trace := v.trace ++ [Action.changedState .running, Action.goCollectOutput] } := by
  rcases hk with hk | hk
  · simp [loop, iteration, hs, hc, RunVars.emit, recvProcWait, signalWhenProcessDone, hk, hd]
  · cases hr : recvProcWait v.procWait o.exit <;>
      simp [loop, iteration, hs, hc, RunVars.emit, hr, hk, hd]

theorem loop_shuttingDown_exit (d : Int) (o : Obs) (w : List Obs) (v : RunVars) (p : Pipes)
    (e : GoError) (hs : v.state = .shuttingDown) (hc : v.cmd = some p) (hw : 0 < v.procWait)
    (he : o.exit = some e) :
    loop d (o :: w) v = loop d w
      { v with state := .stopped, ctxDone := v.ctxDone || o.cancel, procWait := v.procWait - 1,
               cmd := some { p with stdoutOpen := false },
               trace := v.trace ++ [Action.changedState .shuttingDown, Action.sigterm,
                                    Action.recvProcWait e, Action.stdoutClose] } := by
  simp [loop, iteration, hs, hc, RunVars.emit, recvProcWait, signalWhenProcessDone, hw, he]

theorem loop_shuttingDown_stuck (d : Int) (o : Obs) (w : List Obs) (v : RunVars) (p : Pipes)
    (hs : v.state = .shuttingDown) (hc : v.cmd = some p) (he : o.exit = none) :
    loop d (o :: w) v = .blocked
      { v with ctxDone := v.ctxDone || o.cancel,
               trace := v.trace ++ [Action.changedState .shuttingDown, Action.sigterm] } := by
  simp [loop, iteration, hs, hc, RunVars.emit, recvProcWait, signalWhenProcessDone, he]

/-- A script in two parts: the second part is played from where the first one
leaves the loop, if it leaves it running. -/
theorem loop_append (d : Int) (w1 w2 : List Obs) (v : RunVars) :
    loop d (w1 ++ w2) v =
      match loop d w1 v with
      | .unfinished v1 => loop d w2 v1
      | out => out := by
  induction w1 generalizing v with
  | nil => simp [loop]
  | cons o w1 ih =>
    simp only [List.cons_append, loop]
    cases iteration d o v with
    | next v1 => simpa using ih v1
    | ret v1 => rfl
    | blocked v1 => rfl
    | panicked v1 => rfl

theorem run_append (d R : Int) (w1 w2 : List Obs) (v : RunVars)
    (h : run d R w1 = .unfinished v) : run d R (w1 ++ w2) = loop d w2 v := by
  unfold run at h ⊢
  rw [loop_append, h]

/-- With every launch failing, the loop started in Starting with a budget of `n`
goes through `n` restart cycles and returns. -/
theorem loop_all_fail (d : Int) (n : Nat) : ∀ (w : List Obs) (v : RunVars),
    v.state = .starting → v.retries = (n : Int) →
    (∀ o ∈ w, o.pipeErr = false ∧ o.startErr ≠ none) → 3 * n + 3 ≤ w.length →
    ∃ v1, loop d w v = .returned v1 ∧ v1.state = .stopped ∧ v1.retries = 0 ∧
      statesVisited v1.trace = statesVisited v.trace ++ failingStates n ∧
      launchAttempts v1.trace = launchAttempts v.trace + (n + 1) ∧
      restartDelays v1.trace = restartDelays v.trace + n := by
  induction n with
  | zero =>
    intro w v hs hr hf hl
    match w, hl, hf with
    | o1 :: o2 :: o3 :: w1, _, hf =>
      have h1 := hf o1 (by simp)
      rw [loop_starting_fail d o1 _ v hs h1.1 h1.2, loop_errored_zero d o2 _ _ rfl (by simpa using hr),
        loop_stopped d o3 _ _ rfl]
      refine ⟨_, rfl, rfl, by simpa using hr, ?_, ?_, ?_⟩
      · simp [statesVisited_append, failingStates]; simp [statesVisited]
      · simp [launchAttempts_append]; simp [launchAttempts]
      · simp [restartDelays_append]; simp [restartDelays]
  | succ n ih =>
    intro w v hs hr hf hl
    match w, hl, hf with
    | o1 :: o2 :: o3 :: w1, hl, hf =>
      have h1 := hf o1 (by simp)
      have hr1 : v.retries ≠ 0 := by rw [hr]; push_cast; omega
      rw [loop_starting_fail d o1 _ v hs h1.1 h1.2, loop_errored_pos d o2 _ _ rfl (by simpa using hr1),
        loop_restarting d o3 _ _ ⟨true, true⟩ rfl rfl]
      dsimp only
      refine Exists.elim (ih w1 _ rfl (by simp [hr]) (fun o ho => hf o (by simp [ho]))
        (by simp at hl; omega)) (fun v1 h => ⟨v1, h.1, h.2.1, h.2.2.1, ?_, ?_, ?_⟩)
      · rw [h.2.2.2.1]; simp [statesVisited_append, failingStates]; simp [statesVisited]
      · rw [h.2.2.2.2.1]; simp [launchAttempts_append]; simp [launchAttempts]; omega
      · rw [h.2.2.2.2.2]; simp [restartDelays_append]; simp [restartDelays]; omega

/-! ### What every run maintains -/

theorem inv_initVars (R : Nat) : Inv R (initVars R) := by
  constructor <;> simp [initVars, launchAttempts, watchersStarted, successfulLaunches,
    messagesReceived]

theorem inv_iteration_starting (R : Nat) (d : Int) (o : Obs) (v : RunVars) (h : Inv R v)
    (hs : v.state = .starting) : Inv R (iteration d o v).vars := by
  obtain ⟨h1, h0, h2, h3, h4, h5, h6, h7, h8⟩ := h
  simp only [hs] at h2 h3 h4 h8
  cases hpe : o.pipeErr
  · by_cases hf : o.startErr = none <;>
    simp only [iteration, hs, RunVars.emit, createCommand, hpe, hf, Bool.false_eq_true,
      if_false, if_true, ne_eq, not_true_eq_false, not_false_eq_true] <;>
    constructor <;>
    simp_all [Flow.vars, launchAttempts_append, watchersStarted_append,
      successfulLaunches_append, messagesReceived_append, launchAttempts, watchersStarted,
      successfulLaunches, messagesReceived] <;>
    first
    | omega
    | (intro p hp; rcases hp with hp | hp
       · exact h7 p hp
       · exact h8 p hp)
  · simp only [iteration, hs, RunVars.emit, createCommand, hpe, if_true]
    constructor <;>
    simp_all [Flow.vars, launchAttempts_append, watchersStarted_append,
      successfulLaunches_append, messagesReceived_append, launchAttempts, watchersStarted,
      successfulLaunches, messagesReceived] <;>
    first
    | omega
    | exact h7
    | exact h8

theorem inv_iteration_errored (R : Nat) (d : Int) (o : Obs) (v : RunVars) (h : Inv R v)
    (hs : v.state = .errored) : Inv R (iteration d o v).vars := by
  obtain ⟨h1, h0, h2, h3, h4, h5, h6, h7, h8⟩ := h
  simp only [hs] at h2 h3 h4 h8
  simp only [iteration, hs, RunVars.emit]
  split <;> constructor <;>
    simp_all [Flow.vars, launchAttempts_append, watchersStarted_append,
      successfulLaunches_append, messagesReceived_append, launchAttempts, watchersStarted,
      successfulLaunches, messagesReceived, recvProcWait, signalWhenProcessDone] <;>
    first
    | omega
    | exact h7

theorem inv_iteration_restarting (R : Nat) (d : Int) (o : Obs) (v : RunVars) (h : Inv R v)
    (hs : v.state = .restarting) : Inv R (iteration d o v).vars := by
  obtain ⟨h1, h0, h2, h3, h4, h5, h6, h7, h8⟩ := h
  simp only [hs] at h2 h3 h4 h8
  simp only [iteration, hs, RunVars.emit]
  split <;> constructor <;>
    simp_all [Flow.vars, launchAttempts_append, watchersStarted_append,
      successfulLaunches_append, messagesReceived_append, launchAttempts, watchersStarted,
      successfulLaunches, messagesReceived, recvProcWait, signalWhenProcessDone] <;>
    first
    | omega
    | exact h7

theorem inv_iteration_stopped (R : Nat) (d : Int) (o : Obs) (v : RunVars) (h : Inv R v)
    (hs : v.state = .stopped) : Inv R (iteration d o v).vars := by
  obtain ⟨h1, h0, h2, h3, h4, h5, h6, h7, h8⟩ := h
  simp only [hs] at h2 h3 h4 h8
  simp only [iteration, hs, RunVars.emit]
  constructor <;>
    simp_all [Flow.vars, launchAttempts_append, watchersStarted_append,
      successfulLaunches_append, messagesReceived_append, launchAttempts, watchersStarted,
      successfulLaunches, messagesReceived, recvProcWait, signalWhenProcessDone] <;>
    first
    | omega
    | exact h7

theorem inv_iteration_shuttingDown (R : Nat) (d : Int) (o : Obs) (v : RunVars) (h : Inv R v)
    (hs : v.state = .shuttingDown) : Inv R (iteration d o v).vars := by
  obtain ⟨h1, h0, h2, h3, h4, h5, h6, h7, h8⟩ := h
  simp only [hs] at h2 h3 h4 h8
  cases hc : v.cmd with
  | none => simp [hc] at h4
  | some p =>
    cases hr : recvProcWait v.procWait o.exit <;>
    simp only [iteration, hs, hc, hr, RunVars.emit] <;> constructor <;>
    simp_all [Flow.vars, launchAttempts_append, watchersStarted_append,
      successfulLaunches_append, messagesReceived_append, launchAttempts, watchersStarted,
      successfulLaunches, messagesReceived, recvProcWait, signalWhenProcessDone] <;>
    first
    | omega
    | exact h7

theorem inv_iteration_running (R : Nat) (d : Int) (o : Obs) (v : RunVars) (h : Inv R v)
    (hs : v.state = .running) : Inv R (iteration d o v).vars := by
  obtain ⟨h1, h0, h2, h3, h4, h5, h6, h7, h8⟩ := h
  simp only [hs] at h2 h3 h4 h8
  cases hc : v.cmd with
  | none => simp [hc] at h4
  | some p =>
    cases hr : recvProcWait v.procWait o.exit <;>
    simp only [iteration, hs, hc, hr, RunVars.emit] <;> split_ifs <;> constructor <;>
    simp_all [Flow.vars, launchAttempts_append, watchersStarted_append,
      successfulLaunches_append, messagesReceived_append, launchAttempts, watchersStarted,
      successfulLaunches, messagesReceived, recvProcWait, signalWhenProcessDone] <;>
    first
    | omega
    | exact h7

/-- One pass through the loop body keeps the invariant, however the pass ends. -/
theorem inv_iteration (R : Nat) (d : Int) (o : Obs) (v : RunVars) (h : Inv R v) :
    Inv R (iteration d o v).vars := by
  cases hs : v.state with
  | starting => exact inv_iteration_starting R d o v h hs
  | running => exact inv_iteration_running R d o v h hs
  | shuttingDown => exact inv_iteration_shuttingDown R d o v h hs
  | stopped => exact inv_iteration_stopped R d o v h hs
  | restarting => exact inv_iteration_restarting R d o v h hs
  | errored => exact inv_iteration_errored R d o v h hs

theorem inv_loop (R : Nat) (d : Int) (w : List Obs) : ∀ v, Inv R v → Inv R (loop d w v).vars := by
  induction w with
  | nil => intro v h; simpa [loop, Outcome.vars] using h
  | cons o w ih =>
    intro v h
    have h1 := inv_iteration R d o v h
    simp only [loop]
    cases hit : iteration d o v with
    | next v1 => rw [hit] at h1; exact ih v1 h1
    | ret v1 => rw [hit] at h1; exact h1
    | blocked v1 => rw [hit] at h1; exact h1
    | panicked v1 => rw [hit] at h1; exact h1

/-- The invariant holds of the variables of every run, at every point a script
can stop it and when it has ended. -/
theorem inv_run (R : Nat) (d : Int) (w : List Obs) : Inv R (run d R w).vars :=
  inv_loop R d w _ (inv_initVars R)

/-- Playing one more script entry from the top of the loop is one pass through
the loop body. -/
theorem run_snoc_vars (d R : Int) (w : List Obs) (o : Obs) (v : RunVars)
    (h : run d R w = .unfinished v) :
    (run d R (w ++ [o])).vars = (iteration d o v).vars := by
  rw [run_append d R w [o] v h]
  simp only [loop]
  cases iteration d o v <;> rfl

/-- A pass through the loop body returns only from state Stopped. -/
theorem iteration_ret_state (d : Int) (o : Obs) (v v1 : RunVars)
    (h : iteration d o v = .ret v1) : v1.state = .stopped := by
  cases hs : v.state <;> simp only [iteration, hs, RunVars.emit] at h
  · cases hp : createCommand o.pipeErr <;> simp only [hp] at h
    · simp at h
    · split_ifs at h
  · cases hc : v.cmd <;> simp only [hc] at h
    · simp at h
    · cases hr : recvProcWait v.procWait o.exit <;> simp only [hr] at h <;>
        split_ifs at h
  · cases hc : v.cmd <;> simp only [hc] at h
    · simp at h
    · cases hr : recvProcWait v.procWait o.exit <;> simp only [hr] at h <;> simp at h
  · simp only [Flow.ret.injEq] at h
    rw [← h]
  · cases hc : v.cmd <;> simp only [hc] at h <;> simp at h
  · split_ifs at h

/-- The loop returns only from state Stopped. -/
theorem loop_returned_state (d : Int) (w : List Obs) :
    ∀ v v1, loop d w v = .returned v1 → v1.state = .stopped := by
  induction w with
  | nil => intro v v1 h; simp [loop] at h
  | cons o w ih =>
    intro v v1 h
    simp only [loop] at h
    cases hit : iteration d o v with
    | next v2 => rw [hit] at h; exact ih v2 v1 h
    | ret v2 =>
      rw [hit] at h
      simp only [Outcome.returned.injEq] at h
      subst h
      exact iteration_ret_state d o v v2 hit
    | blocked v2 => rw [hit] at h; simp at h
    | panicked v2 => rw [hit] at h; simp at h

/-! ### Launches that always fail -/

/-- C1: for every retry budget `R`, when every launch attempt fails (the pipes
are created and `cmd.Start` returns an error each time), `run`
returns in state Stopped after exactly `R + 1` launch attempts, `R` passes
through Restarting and `R` restart delays, whatever else the environment does;
its state sequence is `R` cycles Starting, Errored, Restarting followed by
Starting, Errored, Stopped, which for `R = 0` is Starting, Errored, Stopped. -/
theorem run_all_launches_fail (d : Int) (R : Nat) (w : List Obs)
    (hfail : ∀ o ∈ w, o.pipeErr = false ∧ o.startErr ≠ none) (hlen : 3 * R + 3 ≤ w.length) :
    ∃ v, run d R w = .returned v ∧ v.state = .stopped ∧
      launchAttempts v.trace = R + 1 ∧
      (statesVisited v.trace).count .restarting = R ∧
      restartDelays v.trace = R ∧
      statesVisited v.trace = failingStates R ∧
      (R = 0 → statesVisited v.trace = [.starting, .errored, .stopped]) := by
  obtain ⟨v, h1, h2, _, h4, h5, h6⟩ := loop_all_fail d R w (initVars R) rfl rfl hfail hlen
  have h4a : statesVisited v.trace = failingStates R := by
    simpa [initVars, statesVisited] using h4
  refine ⟨v, h1, h2, ?_, ?_, ?_, h4a, ?_⟩
  · simpa [initVars, launchAttempts] using h5
  · rw [h4a, count_restarting_failingStates]
  · simpa [initVars, restartDelays] using h6
  · intro h0; rw [h4a, h0]; rfl

/-- C1 at budgets 0 and 2: one launch attempt and no restart delay for 0, three
launch attempts and two restart delays for 2. -/
theorem run_all_launches_fail_witness :
    (∀ o ∈ List.replicate 9 failObs, o.pipeErr = false ∧ o.startErr ≠ none) ∧
    3 * 2 + 3 ≤ (List.replicate 9 failObs).length ∧
    ∃ v, run 1000 (2 : Nat) (List.replicate 9 failObs) = .returned v ∧ v.state = .stopped ∧
      launchAttempts v.trace = 2 + 1 ∧
      (statesVisited v.trace).count .restarting = 2 ∧
      restartDelays v.trace = 2 ∧
      statesVisited v.trace = failingStates 2 ∧
      (2 = 0 → statesVisited v.trace = [.starting, .errored, .stopped]) :=
  ⟨by decide, by decide, run_all_launches_fail 1000 2 (List.replicate 9 failObs) (by decide) (by decide)⟩

theorem inv_of_unfinished (R : Nat) (d : Int) (w : List Obs) (v : RunVars)
    (h : run d R w = .unfinished v) : Inv R v := by
  have h1 := inv_run R d w
  rw [h] at h1
  exact h1

/-! ### The retry budget -/

/-- C5: for every retry budget `R` and every script of child outcomes, the
budget stays between 0 and `R` and `run` makes at most `R + 1` launch attempts;
from the top of the loop, a launch failure and an exit received while the
context is not cancelled both lead to Errored with the budget untouched;
Errored with a zero budget goes to Stopped, Errored with a positive budget takes
exactly one from it and goes to Restarting, so that Errored goes to Stopped
exactly when the budget is zero; no other state changes the budget. -/
theorem retry_budget_shared (d : Int) (R : Nat) (w : List Obs) (o : Obs) :
    (0 ≤ (run d R w).vars.retries ∧ (run d R w).vars.retries ≤ R ∧
      launchAttempts (run d R w).vars.trace ≤ R + 1) ∧
    ∀ v, run d R w = .unfinished v →
      (v.state = .starting → o.pipeErr = false → o.startErr ≠ none →
        ∃ v1, run d R (w ++ [o]) = .unfinished v1 ∧ v1.state = .errored ∧
          v1.retries = v.retries) ∧
      (v.state = .running → ∀ e, o.exit = some e → (v.ctxDone || o.cancel) = false →
        ∃ v1, run d R (w ++ [o]) = .unfinished v1 ∧ v1.state = .errored ∧
          v1.retries = v.retries) ∧
      (v.state = .errored →
        ∃ v1, run d R (w ++ [o]) = .unfinished v1 ∧
          (v.retries = 0 → v1.state = .stopped ∧ v1.retries = 0) ∧
          (0 < v.retries → v1.state = .restarting ∧ v1.retries = v.retries - 1) ∧
          (v1.state = .stopped ↔ v.retries = 0)) ∧
      (v.state ≠ .errored → (run d R (w ++ [o])).vars.retries = v.retries) := by
  have hinv := inv_run R d w
  refine ⟨⟨hinv.retries_nonneg, hinv.retries_le, ?_⟩, ?_⟩
  · have h2 := hinv.launches
    have h1 := hinv.retries_nonneg
    split_ifs at h2 <;> omega
  · intro v hv
    have hi := inv_of_unfinished R d w v hv
    refine ⟨?_, ?_, ?_, ?_⟩
    · intro hs hp hf
      rw [run_append d R w [o] v hv, loop_starting_fail d o [] v hs hp hf]
      exact ⟨_, rfl, rfl, rfl⟩
    · intro hs e he hc
      have hw : 0 < v.procWait := by rw [hi.procWait_eq]; simp [hs]
      obtain ⟨p, hp⟩ := Option.ne_none_iff_exists'.mp (hi.cmd_some (by simp [hs]))
      rw [run_append d R w [o] v hv,
        loop_running_exit d o [] v p e hs hp hw he (by simp [hc])]
      exact ⟨_, rfl, by simp [hc], rfl⟩
    · intro hs
      rw [run_append d R w [o] v hv]
      by_cases hr : v.retries = 0
      · rw [loop_errored_zero d o [] v hs hr]
        refine ⟨_, rfl, fun _ => ⟨rfl, hr⟩, fun h => ?_, ?_⟩
        · omega
        · simp [hr]
      · rw [loop_errored_pos d o [] v hs hr]
        refine ⟨_, rfl, fun h => absurd h hr, fun _ => ⟨rfl, rfl⟩, ?_⟩
        simp [hr]
    · intro hs
      rw [run_snoc_vars d R w o v hv]
      cases hst : v.state with
      | errored => exact absurd hst hs
      | starting =>
        cases hp : createCommand o.pipeErr <;>
          simp only [iteration, hst, hp, RunVars.emit] <;> (try split_ifs) <;> rfl
      | running =>
        cases hc : v.cmd with
        | none => simp [iteration, hst, hc, Flow.vars]
        | some p =>
          cases hr : recvProcWait v.procWait o.exit <;>
            simp only [iteration, hst, hc, hr, RunVars.emit] <;> (try split_ifs) <;> rfl
      | shuttingDown =>
        cases hc : v.cmd with
        | none => simp [iteration, hst, hc, Flow.vars]
        | some p =>
          cases hr : recvProcWait v.procWait o.exit <;>
            simp only [iteration, hst, hc, hr, RunVars.emit] <;> rfl
      | stopped => simp [iteration, hst, Flow.vars]
      | restarting =>
        cases hc : v.cmd <;> simp [iteration, hst, hc, Flow.vars]

/-- C5 on a budget of 1, after a first failed launch: Errored takes one from the
budget and goes to Restarting. -/
theorem retry_budget_shared_witness :
    ∃ v1, run 1000 ((1 : Nat) : Int) ([failObs] ++ [failObs]) = .unfinished v1 ∧
      ((run 1000 ((1 : Nat) : Int) [failObs]).vars.retries = 0 →
        v1.state = .stopped ∧ v1.retries = 0) ∧
      (0 < (run 1000 ((1 : Nat) : Int) [failObs]).vars.retries →
        v1.state = .restarting ∧
          v1.retries = (run 1000 ((1 : Nat) : Int) [failObs]).vars.retries - 1) ∧
      (v1.state = .stopped ↔ (run 1000 ((1 : Nat) : Int) [failObs]).vars.retries = 0) :=
  ((retry_budget_shared 1000 1 [failObs] failObs).2
    (run 1000 ((1 : Nat) : Int) [failObs]).vars (by decide)).2.2.1 (by decide)

/-! ### The exit watcher -/

/-- A property kept by every pass that goes round the loop again holds wherever
a script stops the loop. -/
theorem loop_top_inv (d : Int) (P : RunVars → Prop)
    (hstep : ∀ o v v1, P v → iteration d o v = .next v1 → P v1) (w : List Obs) :
    ∀ v v1, P v → loop d w v = .unfinished v1 → P v1 := by
  induction w with
  | nil =>
    intro v v1 hP h
    simp only [loop, Outcome.unfinished.injEq] at h
    exact h ▸ hP
  | cons o w ih =>
    intro v v1 hP h
    simp only [loop] at h
    cases hit : iteration d o v with
    | next v2 => rw [hit] at h; exact ih v2 v1 (hstep o v v2 hP hit) h
    | ret v2 => rw [hit] at h; simp at h
    | blocked v2 => rw [hit] at h; simp at h
    | panicked v2 => rw [hit] at h; simp at h

/-- C9: in every run there is one exit watcher per successful launch and none
per failed one; every watcher's message is either received already or still
pending, and a watcher is pending exactly in Running and ShuttingDown, where
there is one.  So at every entry to Starting, and when `run` has returned, no
watcher is pending and the messages received are as many as the successful
launches. -/
theorem exit_watcher_messages (d : Int) (R : Nat) (w : List Obs) :
    watchersStarted (run d R w).vars.trace = successfulLaunches (run d R w).vars.trace ∧
    messagesReceived (run d R w).vars.trace + (run d R w).vars.procWait =
      successfulLaunches (run d R w).vars.trace ∧
    (run d R w).vars.procWait =
      (if (run d R w).vars.state = .running ∨ (run d R w).vars.state = .shuttingDown
        then 1 else 0) ∧
    (∀ v, run d R w = .unfinished v → v.state = .starting →
      v.procWait = 0 ∧ messagesReceived v.trace = successfulLaunches v.trace) ∧
    (∀ v, run d R w = .returned v →
      v.procWait = 0 ∧ messagesReceived v.trace = successfulLaunches v.trace) := by
  have hinv := inv_run R d w
  have h5 := hinv.watchers
  have h6 := hinv.received
  have h3 := hinv.procWait_eq
  refine ⟨h5, by omega, h3, ?_, ?_⟩
  · intro v hv hs
    rw [hv] at h3 h5 h6
    simp only [Outcome.vars, hs] at h3 h5 h6
    simp at h3
    exact ⟨h3, by omega⟩
  · intro v hv
    have hs := loop_returned_state d w _ v hv
    rw [hv] at h3 h5 h6
    simp only [Outcome.vars, hs] at h3 h5 h6
    simp at h3
    exact ⟨h3, by omega⟩

/-- C9 on a run that launches a child, sees it exit, fails the relaunch and
stops: one message received for the one successful launch. -/
theorem exit_watcher_messages_witness :
    (run 1000 ((1 : Nat) : Int)
        [okObs, cleanExitObs, failObs, failObs, failObs, failObs, failObs]).vars.procWait = 0 ∧
    messagesReceived (run 1000 ((1 : Nat) : Int)
        [okObs, cleanExitObs, failObs, failObs, failObs, failObs, failObs]).vars.trace =
      successfulLaunches (run 1000 ((1 : Nat) : Int)
        [okObs, cleanExitObs, failObs, failObs, failObs, failObs, failObs]).vars.trace :=
  (exit_watcher_messages 1000 1
    [okObs, cleanExitObs, failObs, failObs, failObs, failObs, failObs]).2.2.2.2 _ (by decide)

/-! ### Exit and cancellation in Running -/

theorem sigtermsSent_append (a b : List Action) :
    sigtermsSent (a ++ b) = sigtermsSent a + sigtermsSent b := by
  simp [sigtermsSent, List.count_append]

theorem noSigterm_step (d : Int) (o : Obs) (v v1 : RunVars) (h : NoSigterm v)
    (hit : iteration d o v = .next v1) : NoSigterm v1 := by
  unfold NoSigterm at h ⊢
  by_cases hst : v.state = .stopped
  · simp [iteration, hst] at hit
  · have h0 := h hst
    cases hs : v.state <;> simp only [iteration, hs, RunVars.emit] at hit
    · cases hp : createCommand o.pipeErr <;> simp only [hp] at hit
      · simp at hit
      · split_ifs at hit <;> simp only [Flow.next.injEq] at hit <;> subst hit <;>
        (intro _; simp only [sigtermsSent_append, h0, zero_add]; simp [sigtermsSent])
    · cases hc : v.cmd <;> simp only [hc] at hit
      · simp at hit
      · cases hr : recvProcWait v.procWait o.exit <;> simp only [hr] at hit <;>
        split_ifs at hit <;> simp only [Flow.next.injEq] at hit <;> (try subst hit) <;>
        first
        | (intro hne; exact absurd rfl hne)
        | (intro _; simp only [sigtermsSent_append, h0, zero_add]; simp [sigtermsSent])
    · cases hc : v.cmd <;> simp only [hc] at hit
      · simp at hit
      · cases hr : recvProcWait v.procWait o.exit <;> simp only [hr] at hit
        · simp at hit
        · simp only [Flow.next.injEq] at hit
          subst hit
          intro hne
          exact absurd rfl hne
    · exact absurd hs hst
    · cases hc : v.cmd <;> simp only [hc] at hit
      · simp at hit
      · simp only [Flow.next.injEq] at hit
        subst hit
        (intro _; simp only [sigtermsSent_append, h0, zero_add]; simp [sigtermsSent])
    · split_ifs at hit <;> simp only [Flow.next.injEq] at hit <;> subst hit <;>
        first
        | (intro hne; exact absurd rfl hne)
        | (intro _; simp only [sigtermsSent_append, h0, zero_add]; simp [sigtermsSent])

theorem noSigterm_of_unfinished (d R : Int) (w : List Obs) (v : RunVars)
    (h : run d R w = .unfinished v) : NoSigterm v :=
  loop_top_inv d NoSigterm (fun o v v1 => noSigterm_step d o v v1) w (initVars R) v
    (by intro _; rfl) h

/-- C3: when a child has been launched and the `select` of Running takes the
cancellation case (the context is cancelled, and either the child has not
exited or Go picks that case), then, once the child exits, `run` goes Running,
ShuttingDown, Stopped and returns: it sends the termination signal, then
receives the exit watcher's message, then closes the output stream; the signal
is sent exactly once in the whole run, Errored is not visited on the way and
the retry budget is left as it was. -/
theorem cancel_while_running (d : Int) (R : Nat) (w : List Obs) (o2 o3 o4 : Obs) (v : RunVars)
    (e : GoError) (hv : run d R w = .unfinished v) (hs : v.state = .running)
    (hd : (v.ctxDone || o2.cancel) = true) (hk : o2.exit = none ∨ o2.pickDone = true)
    (he : o3.exit = some e) :
    ∃ v1, run d R (w ++ [o2, o3, o4]) = .returned v1 ∧
      v1.trace = v.trace ++
        [Action.changedState .running, Action.goCollectOutput,
         Action.changedState .shuttingDown, Action.sigterm, Action.recvProcWait e,
         Action.stdoutClose, Action.changedState .stopped] ∧
      statesVisited v1.trace = statesVisited v.trace ++ [.running, .shuttingDown, .stopped] ∧
      sigtermsSent v1.trace = 1 ∧
      v1.retries = v.retries ∧ v1.state = .stopped := by
  have hi := inv_of_unfinished R d w v hv
  have hw : v.procWait = 1 := by rw [hi.procWait_eq]; simp [hs]
  obtain ⟨p, hp⟩ := Option.ne_none_iff_exists'.mp (hi.cmd_some (by simp [hs]))
  have h0 : sigtermsSent v.trace = 0 := noSigterm_of_unfinished d R w v hv (by simp [hs])
  rw [run_append d R w _ v hv, loop_running_done d o2 _ v p hs hp hd hk,
    loop_shuttingDown_exit d o3 _ _ p e rfl (by exact hp) (by simp [hw]) he,
    loop_stopped d o4 _ _ rfl]
  refine ⟨_, rfl, by simp, ?_, ?_, rfl, rfl⟩
  · simp [statesVisited_append]; simp [statesVisited]
  · simp only [sigtermsSent_append, h0]; simp [sigtermsSent]

/-- C3 on a first child that runs until the host cancels and then exits on the
termination signal. -/
theorem cancel_while_running_witness :
    ∃ v1, run 1000 ((3 : Nat) : Int) ([okObs] ++ [cancelObs, termExitObs, okObs]) = .returned v1 ∧
      v1.trace = (run 1000 ((3 : Nat) : Int) [okObs]).vars.trace ++
        [Action.changedState .running, Action.goCollectOutput,
         Action.changedState .shuttingDown, Action.sigterm, Action.recvProcWait (some 143),
         Action.stdoutClose, Action.changedState .stopped] ∧
      statesVisited v1.trace =
        statesVisited (run 1000 ((3 : Nat) : Int) [okObs]).vars.trace ++
          [.running, .shuttingDown, .stopped] ∧
      sigtermsSent v1.trace = 1 ∧
      v1.retries = (run 1000 ((3 : Nat) : Int) [okObs]).vars.retries ∧ v1.state = .stopped :=
  cancel_while_running 1000 3 [okObs] cancelObs termExitObs okObs
    (run 1000 ((3 : Nat) : Int) [okObs]).vars (some 143) (by decide) (by decide) (by decide)
    (by decide) (by decide)

/-- C4: when the receive from `procWait` is the case the `select` of Running
takes, delivering the child's exit result `e`: if the context is not cancelled
the next state is Errored whatever `e` is, a nil error included; if it is
cancelled the next state is Stopped, `run` returns from there without visiting
Errored, and in both cases the pass leaves the retry budget as it was. -/
theorem running_exit_received (d : Int) (R : Nat) (w : List Obs) (o o1 : Obs) (v : RunVars)
    (e : GoError) (hv : run d R w = .unfinished v) (hs : v.state = .running)
    (he : o.exit = some e) (hk : ((v.ctxDone || o.cancel) && o.pickDone) = false) :
    ((v.ctxDone || o.cancel) = false →
      ∃ v1, run d R (w ++ [o]) = .unfinished v1 ∧ v1.state = .errored ∧ v1.err = e ∧
        v1.retries = v.retries) ∧
    ((v.ctxDone || o.cancel) = true →
      (∃ v1, run d R (w ++ [o]) = .unfinished v1 ∧ v1.state = .stopped ∧
        v1.retries = v.retries) ∧
      ∃ v2, run d R (w ++ [o, o1]) = .returned v2 ∧ v2.retries = v.retries ∧
        statesVisited v2.trace = statesVisited v.trace ++ [.running, .stopped]) := by
  have hi := inv_of_unfinished R d w v hv
  have hw : 0 < v.procWait := by rw [hi.procWait_eq]; simp [hs]
  obtain ⟨p, hp⟩ := Option.ne_none_iff_exists'.mp (hi.cmd_some (by simp [hs]))
  refine ⟨fun hc => ?_, fun hc => ⟨?_, ?_⟩⟩
  · rw [run_append d R w _ v hv, loop_running_exit d o _ v p e hs hp hw he hk]
    exact ⟨_, rfl, by simp [hc], rfl, rfl⟩
  · rw [run_append d R w _ v hv, loop_running_exit d o _ v p e hs hp hw he hk]
    exact ⟨_, rfl, by simp [hc], rfl⟩
  · rw [run_append d R w _ v hv, loop_running_exit d o _ v p e hs hp hw he hk,
      loop_stopped d o1 _ _ (by simp [hc])]
    refine ⟨_, rfl, rfl, ?_⟩
    simp [statesVisited_append]; simp [statesVisited]

/-- C4 on a first child that exits cleanly while no shutdown is in progress:
the next state is Errored. -/
theorem running_exit_received_witness :
    ∃ v1, run 1000 ((3 : Nat) : Int) ([okObs] ++ [cleanExitObs]) = .unfinished v1 ∧
      v1.state = .errored ∧ v1.err = none ∧
      v1.retries = (run 1000 ((3 : Nat) : Int) [okObs]).vars.retries :=
  (running_exit_received 1000 3 [okObs] cleanExitObs okObs
    (run 1000 ((3 : Nat) : Int) [okObs]).vars none (by decide) (by decide) (by decide)
    (by decide)).1 (by decide)

/-! ### Cancellation outside Running -/

/-- C2 fails as stated: with the context cancelled before the first launch,
`run` still makes a launch attempt (budget 0); with the context cancelled during
the restart delay, `run` goes back to Starting and makes a second launch
attempt (budget 1). -/
theorem cancelled_run_still_launches :
    (cancelBeforeStart.head?.map Obs.cancel = some true ∧
      launchAttempts (run 1000 0 cancelBeforeStart).vars.trace = 1 ∧
      statesVisited (run 1000 0 cancelBeforeStart).vars.trace =
        [.starting, .errored, .stopped]) ∧
    ((run 1000 1 (cancelDuringRestart.take 2)).vars.state = .restarting ∧
      (run 1000 1 (cancelDuringRestart.take 2)).vars.ctxDone = false ∧
      launchAttempts (run 1000 1 (cancelDuringRestart.take 2)).vars.trace = 1 ∧
      (run 1000 1 (cancelDuringRestart.take 3)).vars.state = .starting ∧
      (run 1000 1 (cancelDuringRestart.take 3)).vars.ctxDone = true ∧
      launchAttempts (run 1000 1 cancelDuringRestart).vars.trace = 2 ∧
      statesVisited (run 1000 1 cancelDuringRestart).vars.trace =
        [.starting, .errored, .restarting, .starting, .errored, .stopped]) := by
  decide

/-- From Starting with the context cancelled, a launch that succeeds is followed
by Running and then Stopped, through ShuttingDown or not, once the child's exit
is delivered. -/
theorem loop_cancelled_launch (d : Int) (o1 o2 o3 o4 : Obs) (v : RunVars)
    (hs : v.state = .starting) (hw : v.procWait = 0)
    (hd : (v.ctxDone || o1.cancel) = true) (hp : o1.pipeErr = false)
    (hf : o1.startErr = none)
    (hex : (o2.exit ≠ none ∧ o2.pickDone = false) ∨ o3.exit ≠ none) :
    ∃ v1, loop d [o1, o2, o3, o4] v = .returned v1 ∧
      launchAttempts v1.trace = launchAttempts v.trace + 1 ∧
      (statesVisited v1.trace = statesVisited v.trace ++ [.starting, .running, .stopped] ∨
        statesVisited v1.trace =
          statesVisited v.trace ++ [.starting, .running, .shuttingDown, .stopped]) ∧
      v1.retries = v.retries := by
  rw [loop_starting_ok d o1 _ v hs hp hf]
  by_cases hk : o2.exit = none ∨ o2.pickDone = true
  · have he3 : o3.exit ≠ none := by
      rcases hex with ⟨h1, h2⟩ | h
      · rcases hk with hk | hk
        · exact absurd hk h1
        · rw [h2] at hk; exact absurd hk (by decide)
      · exact h
    obtain ⟨e3, he3⟩ := Option.ne_none_iff_exists'.mp he3
    rw [loop_running_done d o2 _ _ ⟨true, true⟩ rfl rfl (by simp [hd]) hk,
      loop_shuttingDown_exit d o3 _ _ ⟨true, true⟩ e3 rfl rfl (by simp [hw]) he3,
      loop_stopped d o4 _ _ rfl]
    refine ⟨_, rfl, ?_, Or.inr ?_, rfl⟩
    · simp [launchAttempts_append]; simp [launchAttempts]
    · simp [statesVisited_append]; simp [statesVisited]
  · simp only [not_or] at hk
    obtain ⟨e2, he2⟩ := Option.ne_none_iff_exists'.mp hk.1
    have hpk : o2.pickDone = false := by simpa using hk.2
    rw [loop_running_exit d o2 _ _ ⟨true, true⟩ e2 rfl rfl (by simp [hw]) he2 (by simp [hpk]),
      loop_stopped d o3 _ _ (by simp [hd])]
    refine ⟨_, rfl, ?_, Or.inl ?_, rfl⟩
    · simp [launchAttempts_append]; simp [launchAttempts]
    · simp [statesVisited_append]; simp [statesVisited]

/-- C2 as amended: Starting and Restarting do not consult the context.  With the
context cancelled by the time `run` is in Starting, or cancelled during the
restart delay, `run` still makes the launch attempt of Starting.  If that
launch succeeds, `run` returns from Stopped once the child's exit is delivered
(in Running, or in ShuttingDown after the termination signal), having made
exactly that one launch attempt and leaving the budget as it was.  If launches
fail, they are retried as without cancellation: `run` returns after as many
launch attempts as the remaining budget plus one. -/
theorem cancelled_before_launch (d : Int) (R : Nat) (w : List Obs) (o0 o1 o2 o3 o4 : Obs)
    (v : RunVars) (hv : run d R w = .unfinished v) :
    (v.state = .starting → (v.ctxDone || o1.cancel) = true →
      o1.pipeErr = false → o1.startErr = none →
      ((o2.exit ≠ none ∧ o2.pickDone = false) ∨ o3.exit ≠ none) →
      ∃ v1, run d R (w ++ [o1, o2, o3, o4]) = .returned v1 ∧
        launchAttempts v1.trace = launchAttempts v.trace + 1 ∧
        (statesVisited v1.trace = statesVisited v.trace ++ [.starting, .running, .stopped] ∨
          statesVisited v1.trace =
            statesVisited v.trace ++ [.starting, .running, .shuttingDown, .stopped]) ∧
        v1.retries = v.retries) ∧
    (v.state = .restarting → (v.ctxDone || o0.cancel) = true →
      o1.pipeErr = false → o1.startErr = none →
      ((o2.exit ≠ none ∧ o2.pickDone = false) ∨ o3.exit ≠ none) →
      ∃ v1, run d R (w ++ [o0, o1, o2, o3, o4]) = .returned v1 ∧
        launchAttempts v1.trace = launchAttempts v.trace + 1 ∧
        (statesVisited v1.trace =
            statesVisited v.trace ++ [.restarting, .starting, .running, .stopped] ∨
          statesVisited v1.trace =
            statesVisited v.trace ++
              [.restarting, .starting, .running, .shuttingDown, .stopped]) ∧
        v1.retries = v.retries) ∧
    (v.state = .starting → ∀ w2 : List Obs,
      (∀ o ∈ w2, o.pipeErr = false ∧ o.startErr ≠ none) →
      3 * v.retries.toNat + 3 ≤ w2.length →
      ∃ v1, run d R (w ++ w2) = .returned v1 ∧
        launchAttempts v1.trace = launchAttempts v.trace + (v.retries.toNat + 1)) := by
  have hi := inv_of_unfinished R d w v hv
  refine ⟨?_, ?_, ?_⟩
  · intro hs hd hp hf hex
    have hw : v.procWait = 0 := by rw [hi.procWait_eq]; simp [hs]
    rw [run_append d R w _ v hv]
    exact loop_cancelled_launch d o1 o2 o3 o4 v hs hw hd hp hf hex
  · intro hs hd hp hf hex
    have hw : v.procWait = 0 := by rw [hi.procWait_eq]; simp [hs]
    obtain ⟨p, hc⟩ := Option.ne_none_iff_exists'.mp (hi.cmd_some (by simp [hs]))
    rw [run_append d R w _ v hv, loop_restarting d o0 _ v p hs hc]
    refine Exists.elim
      (loop_cancelled_launch d o1 o2 o3 o4 _ rfl (by exact hw) (by simp [hd]) hp hf hex)
      (fun v1 h => ⟨v1, h.1, ?_, ?_, h.2.2.2⟩)
    · rw [h.2.1]; simp [launchAttempts_append]; simp [launchAttempts]
    · rcases h.2.2.1 with h3 | h3
      · left; rw [h3]; simp [statesVisited_append]; simp [statesVisited]
      · right; rw [h3]; simp [statesVisited_append]; simp [statesVisited]
  · intro hs w2 hf hl
    rw [run_append d R w _ v hv]
    obtain ⟨v1, h1, _, _, _, h5, _⟩ := loop_all_fail d v.retries.toNat w2 v hs
      (Int.toNat_of_nonneg hi.retries_nonneg).symm hf hl
    exact ⟨v1, h1, h5⟩

/-- C2 as amended, on a run whose context is cancelled before the first launch:
the launch is made, the child gets the termination signal and exits, and `run`
returns after that single launch attempt. -/
theorem cancelled_before_launch_witness :
    ∃ v1, run 1000 ((2 : Nat) : Int) ([] ++ [cancelObs, okObs, termExitObs, okObs]) =
        .returned v1 ∧
      launchAttempts v1.trace = launchAttempts (initVars 2).trace + 1 ∧
      (statesVisited v1.trace =
          statesVisited (initVars 2).trace ++ [.starting, .running, .stopped] ∨
        statesVisited v1.trace =
          statesVisited (initVars 2).trace ++ [.starting, .running, .shuttingDown, .stopped]) ∧
      v1.retries = (initVars 2).retries :=
  (cancelled_before_launch 1000 2 [] okObs cancelObs okObs termExitObs okObs (initVars 2)
    (by decide)).1 (by decide) (by decide) (by decide) (by decide) (by decide)

/-! ### Closing the streams -/

/-- C6 fails as stated: leaving Running for Stopped, `run` has closed neither
stream of the child it launched; leaving ShuttingDown it has closed the output
stream only; and with a budget of 0 a failed launch leaves both pipes of the
attempt open.  In all three runs `run` returns with a stream still open. -/
theorem stopped_with_open_streams :
    (run 1000 0 exitAfterCancel =
        .returned (run 1000 0 exitAfterCancel).vars ∧
      statesVisited (run 1000 0 exitAfterCancel).vars.trace = [.starting, .running, .stopped] ∧
      (run 1000 0 exitAfterCancel).vars.cmd = some ⟨true, true⟩ ∧
      allStreamsClosed (run 1000 0 exitAfterCancel).vars = false) ∧
    (run 1000 0 shutdownScript = .returned (run 1000 0 shutdownScript).vars ∧
      statesVisited (run 1000 0 shutdownScript).vars.trace =
        [.starting, .running, .shuttingDown, .stopped] ∧
      (run 1000 0 shutdownScript).vars.cmd = some ⟨true, false⟩ ∧
      allStreamsClosed (run 1000 0 shutdownScript).vars = false) ∧
    (run 1000 0 [failObs, failObs, failObs] =
        .returned (run 1000 0 [failObs, failObs, failObs]).vars ∧
      (run 1000 0 [failObs, failObs, failObs]).vars.cmd = some ⟨true, true⟩ ∧
      allStreamsClosed (run 1000 0 [failObs, failObs, failObs]).vars = false) := by
  decide

/-- C6 as amended: on the transition out of Restarting both streams of the
current child handle have been closed, and on the transition out of
ShuttingDown its output stream has been closed; Running closes no stream.
Hence at every entry to Starting no stream of any handle created so far is
open, and every handle replaced by a later one has both its streams closed. -/
theorem streams_closed_on_restart (d : Int) (R : Nat) (w : List Obs) (o : Obs) (v : RunVars)
    (hv : run d R w = .unfinished v) :
    (v.state = .restarting →
      ∃ v1, run d R (w ++ [o]) = .unfinished v1 ∧ v1.state = .starting ∧
        v1.cmd = some ⟨false, false⟩ ∧ allStreamsClosed v1 = true) ∧
    (v.state = .shuttingDown → ∀ e, o.exit = some e →
      ∃ v1 p, run d R (w ++ [o]) = .unfinished v1 ∧ v1.state = .stopped ∧
        v1.cmd = some p ∧ p.stdoutOpen = false) ∧
    (v.state = .running → (run d R (w ++ [o])).vars.cmd = v.cmd) ∧
    (v.state = .starting → allStreamsClosed v = true) ∧
    (∀ p ∈ v.discarded, p.closed = true) := by
  have hi := inv_of_unfinished R d w v hv
  have hdisc : ∀ p ∈ v.discarded, p.closed = true := by
    intro p hp
    rw [hi.discarded_closed p hp]
    rfl
  refine ⟨?_, ?_, ?_, ?_, hdisc⟩
  · intro hs
    obtain ⟨p, hc⟩ := Option.ne_none_iff_exists'.mp (hi.cmd_some (by simp [hs]))
    rw [run_append d R w _ v hv, loop_restarting d o _ v p hs hc]
    refine ⟨_, rfl, rfl, rfl, ?_⟩
    simp only [allStreamsClosed, List.all_eq_true, List.mem_append]
    intro q hq
    rcases hq with hq | hq
    · exact hdisc q hq
    · simp at hq
      rw [hq]
      rfl
  · intro hs e he
    have hw : 0 < v.procWait := by rw [hi.procWait_eq]; simp [hs]
    obtain ⟨p, hc⟩ := Option.ne_none_iff_exists'.mp (hi.cmd_some (by simp [hs]))
    rw [run_append d R w _ v hv, loop_shuttingDown_exit d o _ v p e hs hc hw he]
    exact ⟨_, _, rfl, rfl, rfl, rfl⟩
  · intro hs
    rw [run_snoc_vars d R w o v hv]
    cases hc : v.cmd with
    | none => simp [iteration, hs, hc, Flow.vars]
    | some p =>
      cases hr : recvProcWait v.procWait o.exit <;>
        simp only [iteration, hs, hc, hr, RunVars.emit] <;> (try split_ifs) <;>
        simp [Flow.vars, hc]
  · intro hs
    simp only [allStreamsClosed, List.all_eq_true, List.mem_append]
    intro q hq
    rcases hq with hq | hq
    · exact hdisc q hq
    · have := hi.starting_closed hs q (by simpa using hq)
      rw [this]
      rfl

/-- C6 as amended, on a run whose first launch fails (budget 1): leaving
Restarting, both pipes of the failed attempt are closed. -/
theorem streams_closed_on_restart_witness :
    ∃ v1, run 1000 ((1 : Nat) : Int) ([failObs, failObs] ++ [failObs]) = .unfinished v1 ∧
      v1.state = .starting ∧ v1.cmd = some ⟨false, false⟩ ∧ allStreamsClosed v1 = true :=
  (streams_closed_on_restart 1000 1 [failObs, failObs] failObs
    (run 1000 ((1 : Nat) : Int) [failObs, failObs]).vars (by decide)).1 (by decide)

/-! ### Start and Shutdown -/

theorem select_shutdown (stoppedAt : Option Nat) :
    select [stoppedAt, some shutdownTimeout] =
      some (match stoppedAt with
        | some t => min t shutdownTimeout
        | none => shutdownTimeout) := by
  cases stoppedAt <;> simp [select]

/-- A child that is launched and never exits, the context being cancelled while
it runs: `run` sends the termination signal once and then waits forever in
ShuttingDown, whatever the delay and the budget. -/
theorem run_stuck_child (d R : Int) :
    ∃ v, run d R stuckChildScript = .blocked v ∧ v.state = .shuttingDown ∧
      sigtermsSent v.trace = 1 := by
  unfold run stuckChildScript
  rw [loop_starting_ok d okObs _ (initVars R) rfl rfl rfl,
    loop_running_done d cancelObs _ _ ⟨true, true⟩ (by rfl) (by rfl) (by rfl) (Or.inl rfl),
    loop_shuttingDown_stuck d cancelObs _ _ ⟨true, true⟩ (by rfl) (by rfl) rfl]
  refine ⟨_, rfl, rfl, ?_⟩
  simp [initVars, sigtermsSent]

/-- C7: after `Start`, whenever (if ever) the stopped notification is closed,
`Shutdown` invokes the stored cancel function and returns nil, at the instant
the notification is closed or at the 5-second timeout, whichever is first, hence
never later than the timeout.  In particular, when the child never exits after
the termination signal, `run` never returns, the notification is never closed,
and `Shutdown` returns nil at the timeout. -/
theorem shutdown_returns_by_timeout (DefaultRestartDelay DefaultRetries : Int)
    (pm : processManager) (childCtx : Nat) (stoppedAt : Option Nat) :
    (∃ elapsed,
      Shutdown (Start DefaultRestartDelay DefaultRetries pm childCtx).1 stoppedAt =
        .returned ⟨childCtx⟩ elapsed none ∧
      elapsed ≤ shutdownTimeout ∧
      (∀ t, stoppedAt = some t → elapsed = min t shutdownTimeout) ∧
      (stoppedAt = none → elapsed = shutdownTimeout)) ∧
    (closesShutdownSignal (Start DefaultRestartDelay DefaultRetries pm childCtx).2.1
        stuckChildScript = false ∧
      Shutdown (Start DefaultRestartDelay DefaultRetries pm childCtx).1 none =
        .returned ⟨childCtx⟩ shutdownTimeout none) ∧
    shutdownTimeout = 5000000000 := by
  refine ⟨?_, ⟨?_, ?_⟩, by decide⟩
  · simp only [Start, Shutdown, select_shutdown]
    cases stoppedAt with
    | none => exact ⟨_, rfl, le_refl _, by simp, by simp⟩
    | some t => exact ⟨_, rfl, Nat.min_le_right _ _, by simp, by simp⟩
  · obtain ⟨v, hv, _⟩ := run_stuck_child
      (Start DefaultRestartDelay DefaultRetries pm childCtx).2.1.restartDelay
      (Start DefaultRestartDelay DefaultRetries pm childCtx).2.1.retries
    simp only [closesShutdownSignal, hv]
  · simp only [Start, Shutdown, select_shutdown]

/-- C10: `newProcessManager` leaves `cancel` nil and `Shutdown` of such a manager
fails with the call of a nil function instead of returning nil; `Start` sets
`cancel`, and `Shutdown` after `Start` returns nil; in general `Shutdown` fails
exactly when `cancel` is nil. -/
theorem shutdown_requires_start (DefaultRestartDelay DefaultRetries : Int) (conf : Config)
    (childCtx : Nat) (stoppedAt : Option Nat) :
    (newProcessManager conf).cancel = none ∧
    Shutdown (newProcessManager conf) stoppedAt = .nilFuncCall ∧
    (Start DefaultRestartDelay DefaultRetries (newProcessManager conf) childCtx).1.cancel =
      some ⟨childCtx⟩ ∧
    (Start DefaultRestartDelay DefaultRetries (newProcessManager conf) childCtx).2.2 = none ∧
    (∃ elapsed,
      Shutdown (Start DefaultRestartDelay DefaultRetries (newProcessManager conf) childCtx).1
        stoppedAt = .returned ⟨childCtx⟩ elapsed none) ∧
    (∀ pm : processManager, Shutdown pm stoppedAt = .nilFuncCall ↔ pm.cancel = none) := by
  refine ⟨rfl, rfl, rfl, rfl, ?_, ?_⟩
  · simp only [Start, Shutdown, newProcessManager, select_shutdown]
    exact ⟨_, rfl⟩
  · intro pm
    cases hc : pm.cancel with
    | none => simp [Shutdown, hc]
    | some c => simp [Shutdown, hc, select_shutdown]

/-! ### The output collector -/

theorem indexByte_lt (c : Nat) : ∀ (data : List Nat) (i : Nat),
    IndexByte data c = some i → i < data.length := by
  intro data
  induction data with
  | nil => intro i h; simp [IndexByte] at h
  | cons b bs ih =>
    intro i h
    simp only [IndexByte] at h
    split_ifs at h with hb
    · simp at h; subst h; simp
    · cases hr : IndexByte bs c with
      | none => simp [hr] at h
      | some j =>
        simp [hr] at h
        subst h
        have := ih j hr
        simp; omega

theorem indexByte_take (c : Nat) : ∀ (data : List Nat) (i n : Nat),
    IndexByte data c = some i → i < n → IndexByte (data.take n) c = some i := by
  intro data
  induction data with
  | nil => intro i n h; simp [IndexByte] at h
  | cons b bs ih =>
    intro i n h hn
    cases n with
    | zero => omega
    | succ n =>
      simp only [IndexByte] at h
      simp only [List.take_succ_cons, IndexByte]
      split_ifs at h ⊢ with hb
      · exact h
      · cases hr : IndexByte bs c with
        | none => simp [hr] at h
        | some j =>
          simp [hr] at h
          subst h
          rw [ih j n hr (by omega)]
          rfl

theorem indexByte_take_none (c : Nat) : ∀ (data : List Nat) (n : Nat),
    IndexByte data c = none → IndexByte (data.take n) c = none := by
  intro data
  induction data with
  | nil => intro n _; simp [IndexByte]
  | cons b bs ih =>
    intro n h
    cases n with
    | zero => simp [IndexByte]
    | succ n =>
      simp only [IndexByte] at h
      simp only [List.take_succ_cons, IndexByte]
      split_ifs at h ⊢ with hb
      cases hr : IndexByte bs c with
      | none => simp [ih n hr]
      | some j => simp [hr] at h

/-- The lines of a sequence, read off from the position of its first newline. -/
theorem specLines_eq : ∀ data : List Nat,
    specLines data =
      match IndexByte data 10 with
      | some i => data.take i :: specLines (data.drop (i + 1))
      | none => if data = [] then [] else [data] := by
  intro data
  induction data with
  | nil => simp [specLines, IndexByte]
  | cons b bs ih =>
    simp only [specLines, IndexByte]
    by_cases hb : b = 10
    · simp [hb]
    · simp only [hb, if_false]
      rw [ih]
      cases hr : IndexByte bs 10 with
      | none =>
        by_cases hbs : bs = []
        · simp [hbs]
        · simp [hbs]
      | some j => simp

theorem scanLoop_nil (fuel m : Nat) : scanLoop fuel ⟨[], m⟩ = [] := by
  cases fuel with
  | zero => rfl
  | succ n =>
    simp only [scanLoop, Scanner.Scan, ScanLines, IndexByte, List.take_nil, List.length_nil]
    by_cases hm : 0 < m <;> simp [hm]

theorem scanLoop_lines (m : Nat) : ∀ (fuel : Nat) (data : List Nat),
    data.length < fuel → (∀ l ∈ specLines data, l.length < m) →
    scanLoop fuel ⟨data, m⟩ = (specLines data).map dropCR := by
  intro fuel
  induction fuel with
  | zero => intro data h; omega
  | succ n ih =>
    intro data hlen hfit
    rw [specLines_eq] at hfit ⊢
    cases hr : IndexByte data 10 with
    | some i =>
      simp only [hr] at hfit ⊢
      have hi := indexByte_lt 10 data i hr
      have him : i < m := by
        have := hfit (data.take i) (by simp)
        simp at this
        omega
      have hwin := indexByte_take 10 data i m hr him
      have htt : (data.take m).take i = data.take i := by
        rw [List.take_take]; congr 1; omega
      simp only [scanLoop, Scanner.Scan, ScanLines, hwin, htt]
      split_ifs with h0
      · exfalso
        have hwl := indexByte_lt 10 _ i hwin
        simp only [Bool.and_eq_true, beq_iff_eq] at h0
        omega
      · simp only [List.map_cons]
        rw [ih (data.drop (i + 1)) (by simp; omega)
          (fun l hl => hfit l (by simp [hl]))]
    | none =>
      simp only [hr] at hfit ⊢
      by_cases hd : data = []
      · subst hd
        simp [scanLoop_nil]
      · simp only [hd, if_false] at hfit ⊢
        have hdm : data.length < m := hfit data (by simp)
        have hw : data.take m = data := List.take_of_length_le (by omega)
        have hpos : 0 < data.length := List.length_pos.mpr hd
        simp only [scanLoop, Scanner.Scan, ScanLines, hw, hr, hdm, decide_True]
        split_ifs with h0
        · simp only [Bool.and_eq_true, beq_iff_eq] at h0
          omega
        · simp [scanLoop_nil]

theorem indexByte_replicate (a c : Nat) (h : a ≠ c) (rest : List Nat) : ∀ n : Nat,
    IndexByte (List.replicate n a) c = none ∧
    IndexByte (List.replicate n a ++ c :: rest) c = some n := by
  intro n
  induction n with
  | zero => simp [IndexByte]
  | succ n ih => simp [List.replicate_succ, IndexByte, h, ih.1, ih.2]

/-- The loop ends when `Scan` returns false. -/
theorem scanLoop_stop (fuel : Nat) (s : Scanner) (h : s.Scan = none) :
    scanLoop (fuel + 1) s = [] := by
  simp only [scanLoop, h]

/-- A first line that does not fit the buffer stops the scanner. -/
theorem scan_long_line (n m : Nat) (rest : List Nat) (h : m ≤ n) :
    Scanner.Scan ⟨List.replicate n 97 ++ 10 :: rest, m⟩ = none := by
  have hlen : ¬ (List.replicate n 97 ++ 10 :: rest).length < m := by
    simp only [List.length_append, List.length_replicate]
    omega
  have hwin : (List.replicate n 97 ++ 10 :: rest).take m = List.replicate m 97 := by
    rw [List.take_append_of_le_length (by simp [h]), List.take_replicate, Nat.min_eq_left h]
  simp only [Scanner.Scan, hwin, hlen, decide_False, ScanLines,
    (indexByte_replicate 97 10 (by decide) [] m).1]
  simp

/-- The lines of a sequence that starts with a long line. -/
theorem specLines_long_line (n : Nat) (rest : List Nat) :
    specLines (List.replicate n 97 ++ 10 :: rest) = List.replicate n 97 :: specLines rest := by
  rw [specLines_eq]
  simp only [(indexByte_replicate 97 10 (by decide) rest n).2]
  rw [List.take_left' (by simp), ← List.drop_drop, List.drop_left' (by simp)]
  rfl

/-- C8 fails as stated.  A line ending in carriage return, newline is logged
without the carriage return; and after a line of 65536 bytes or more the scanner
stops, so that neither that line nor any later one is logged. -/
theorem collectOutput_misses_lines :
    (collectOutput crlfOutput = [[97], [98]] ∧ specLines crlfOutput = [[97, 13], [98]]) ∧
    (collectOutput longLineOutput = [] ∧ [98] ∈ specLines longLineOutput) := by
  refine ⟨⟨by decide, by decide⟩, ?_, ?_⟩
  · exact scanLoop_stop _ _ (scan_long_line 65536 MaxScanTokenSize [98, 10] (by decide))
  · unfold longLineOutput
    rw [specLines_long_line 65536 [98, 10]]
    exact List.mem_cons_of_mem _ (by decide)

/-- C8 as amended: for every byte sequence each of whose lines is shorter than
the scanner's buffer limit of 65536 bytes, `collectOutput` logs the
newline-delimited lines of the sequence, each exactly once and in their order,
every line without its terminal carriage return if it has one; a final
line that has no trailing newline is logged too.  One pass more than there are
bytes is enough for the loop to end, and further passes change nothing. -/
theorem collectOutput_logs_lines (stdout : List Nat)
    (hfit : ∀ l ∈ specLines stdout, l.length < MaxScanTokenSize) :
    collectOutput stdout = (specLines stdout).map dropCR ∧
    ∀ fuel, stdout.length < fuel →
      scanLoop fuel (NewScanner stdout) = (specLines stdout).map dropCR :=
  ⟨scanLoop_lines _ _ stdout (by omega) hfit, fun fuel h => scanLoop_lines _ fuel stdout h hfit⟩

/-- C8 as amended, on an output with a line ending in carriage return and
newline, an empty line and a final line without newline. -/
theorem collectOutput_logs_lines_witness :
    (∀ l ∈ specLines [97, 13, 10, 10, 98], l.length < MaxScanTokenSize) ∧
    collectOutput [97, 13, 10, 10, 98] = [[97], [], [98]] := by
  have h : ∀ l ∈ specLines [97, 13, 10, 10, 98], l.length < MaxScanTokenSize := by decide
  exact ⟨h, (collectOutput_logs_lines [97, 13, 10, 10, 98] h).1.trans (by decide)⟩

end Subprocess
